import Mathlib

/-!
Shallow embedding of the conversational-agent core (TypeScript sources under
`src/`): state and reducers (`src/state.ts`), the conversation node
(`src/nodes/conversation.ts`), the profile-fetch node
(`src/nodes/fetch-user.ts`), and the OpenRouter LLM service
(`src/services/llm/openrouter.service.ts`).

Modelling conventions:
  * `undefined`/`null`-able JavaScript values become `Option`.
  * JavaScript truthiness on a `string | undefined` value is `(·.getD "") ≠ ""`
    (both `undefined` and `""` are falsy).
  * Asynchronous calls that may throw become `Except Unit` results; a
    `try {...} catch {}` around a call appears as a `match` that maps the
    `error` branch to the degraded value.
  * `Date.now()` and `new Date().toISOString()` are read from an explicit
    environment record (`nowMs`, `nowIso`).
  * `String.toLower` models `toLowerCase` (the trigger word is ASCII).
  * Store/LLM collaborators are passed as explicit function-valued parameters
    (dependency injection of the singleton registry in `src/providers`).
  * The node's externally visible side effects (store `search`/`put` calls)
    are returned in an explicit `Effects` log alongside the state delta.
-/

namespace DemoGraph

/-- Message role (`system` | `user` | `assistant`). -/
inductive Role where
  | system
  | user
  | assistant
deriving DecidableEq, Repr

/-- Message content: a plain string, or any non-string content
(LangChain allows structured content arrays; the node treats those as
not-a-plain-string). -/
inductive Content where
  | str (s : String)
  | other
deriving DecidableEq, Repr

/-- A chat message. -/
structure Message where
  role : Role
  content : Content
deriving DecidableEq, Repr

/-- Postal address fields of a patient (`src/types/patient.ts`). -/
structure Address where
  line1 : Option String
  city : Option String
  postcode : Option String
deriving DecidableEq, Repr

/-- A phone entry of a patient (`src/types/patient.ts`). -/
structure Phone where
  type : String
  number : String
deriving DecidableEq, Repr

/-- Patient entity from Semble CRM (`src/types/patient.ts`). -/
structure Patient where
  id : String
  firstName : Option String := none
  lastName : Option String := none
  email : Option String := none
  dob : Option String := none
  gender : Option String := none
  address : Option Address := none
  phones : List Phone := []
deriving DecidableEq, Repr

/-- Memory item stored in the long-term store (`src/nodes/conversation.ts`). -/
structure MemoryItem where
  text : String
  createdAt : String
deriving DecidableEq, Repr

/-- One item returned by `store.search`: `{ value }`, where the value may be
absent (`item?.text` in the source guards against that). -/
structure SearchItem where
  value : Option MemoryItem
deriving DecidableEq, Repr

/-- Agent state (`src/state.ts`): message history plus the optional user
profile fetched from Semble. -/
structure AgentState where
  messages : List Message := []
  user : Option Patient := none
deriving DecidableEq, Repr

/-- A state delta returned by a node (`AgentStateUpdate` in `src/state.ts`).
`none` in a field means the key is absent from the returned object. -/
structure AgentStateUpdate where
  messages : Option (List Message) := none
  user : Option Patient := none
deriving DecidableEq, Repr

/-- A recorded `store.search` call: the namespace and the limit passed. -/
structure SearchCall where
  ns : List String
  limit : Nat
deriving DecidableEq, Repr

/-- A recorded `store.put` call: namespace, key, and stored value. -/
structure PutCall where
  ns : List String
  key : String
  value : MemoryItem
deriving DecidableEq, Repr

/-- Externally visible store traffic of one node invocation. -/
structure Effects where
  searches : List SearchCall := []
  puts : List PutCall := []
deriving DecidableEq, Repr

/-- The long-term store contract consumed by the node
(`config.store`): namespaced `search` and `put`, either of which may throw. -/
structure Store where
  search : List String → Nat → Except Unit (List SearchItem)
  put : List String → String → MemoryItem → Except Unit Unit

/-- Ambient execution environment of one turn: the `SYSTEM_PROMPT` process
variable, and the clock readings used for the memory key and timestamp. -/
structure Env where
  sysPromptEnv : Option String := none
  nowMs : Nat := 0
  nowIso : String := ""

/-- Per-invocation configuration (`config.configurable` plus `config.store`
of the LangGraph runnable config). -/
structure RunnableConfig where
  model : Option String := none
  clientId : Option String := none
  systemPrompt : Option String := none
  store : Option Store := none

/-- JavaScript template-literal interpolation of a `string | undefined`
value: `undefined` prints as the literal text `"undefined"`. -/
def jsInterp : Option String → String
  | some s => s
  | none => "undefined"

/-- Does the character list start with the given pattern? -/
def charsStartWith : List Char → List Char → Bool
  | _, [] => true
  | [], _ :: _ => false
  | c :: cs, p :: ps => c = p && charsStartWith cs ps

/-- Does the character list contain the pattern as a contiguous run? -/
def charsContain : List Char → List Char → Bool
  | [], p => p.isEmpty
  | c :: cs, p => charsStartWith (c :: cs) p || charsContain cs p

/-- `s.includes(pattern)` of JavaScript strings. -/
def jsIncludes (s pattern : String) : Bool :=
  charsContain s.data pattern.data

/-- `s.toLowerCase()` of JavaScript strings (the trigger keyword is ASCII). -/
def jsToLowerCase (s : String) : String :=
  ⟨s.data.map Char.toLower⟩

/-- Default system prompt (`DEFAULT_SYSTEM_PROMPT` in
`src/nodes/conversation.ts`). -/
def DEFAULT_SYSTEM_PROMPT : String := "You are a helpful assistant."

/-- `getMemoryNamespace` (`src/nodes/conversation.ts`): namespace for a
client's long-term memories, `["memories", clientId]`. -/
def getMemoryNamespace (clientId : String) : List String :=
  ["memories", clientId]

/-- `getSystemPrompt` (`src/nodes/conversation.ts`):
`systemPrompt ?? process.env.SYSTEM_PROMPT ?? DEFAULT_SYSTEM_PROMPT`
(nullish coalescing: an empty-string override is kept). -/
def getSystemPrompt (sysPromptEnv : Option String) (systemPrompt : Option String) : String :=
  systemPrompt.getD (sysPromptEnv.getD DEFAULT_SYSTEM_PROMPT)

/-- The `userDetails` local of `createSystemMessage`
(`src/nodes/conversation.ts`): the four candidate lines, with the
`User Name` line unguarded (template interpolation of possibly-`undefined`
fields) and the other three fields guarded by JavaScript truthiness
(`user.email ? ... : undefined`), then `.filter(Boolean).join("\n")`. -/
def userDetails (user : Patient) : String :=
  String.intercalate "\n"
    (([ some ("User Name: " ++ jsInterp user.firstName ++ " " ++ jsInterp user.lastName),
        if (user.email.getD "") ≠ "" then some ("Email: " ++ user.email.getD "") else none,
        if (user.dob.getD "") ≠ "" then some ("DOB: " ++ user.dob.getD "") else none,
        if (user.gender.getD "") ≠ "" then some ("Gender: " ++ user.gender.getD "") else none
      ] : List (Option String)).filterMap id)

/-- `createSystemMessage` (`src/nodes/conversation.ts`): base prompt, then
the profile block when a user is present, then the memories block when
`memories` is truthy (present and non-empty). Returns the text of the
resulting `SystemMessage`. -/
def createSystemMessage (memories : Option String) (user : Option Patient)
    (systemPrompt : Option String) (sysPromptEnv : Option String) : String :=
  let prompt := getSystemPrompt sysPromptEnv systemPrompt
  let prompt :=
    match user with
    | some u =>
        prompt ++ "\n\nHere is some information about the user you are talking to:\n"
          ++ userDetails u
    | none => prompt
  match memories with
  | some m => if m ≠ "" then prompt ++ "\n\nWhat you remember about this user:\n" ++ m else prompt
  | none => prompt

/-- The memory-retrieval block of `conversationNode`
(`src/nodes/conversation.ts`, lines 109-132): search the client's namespace
with limit 10; map items to `value?.text`, `.filter(Boolean)`, join with
`"\n- "`, and prefix `"- "` when the joined text is non-empty; a thrown
search error degrades to `""`. -/
def retrieveMemoriesText (store : Store) (clientId : String) : String :=
  match store.search (getMemoryNamespace clientId) 10 with
  | .error _ => ""
  | .ok memories =>
      if memories.length > 0 then
        let joined := String.intercalate "\n- "
          ((memories.map (fun m => m.value.map MemoryItem.text)).filterMap
            (fun o => match o with
              | some s => if s ≠ "" then some s else none
              | none => none))
        if joined ≠ "" then "- " ++ joined else joined
      else ""

/-- The content examined by the memory-write policy
(`src/nodes/conversation.ts`, lines 143-145):
`typeof lastMessage?.content === "string" ? lastMessage.content : ""` with
`lastMessage = state.messages.at(-1)`. -/
def lastStringContent (messages : List Message) : String :=
  match messages.getLast? with
  | some msg =>
      match msg.content with
      | .str s => s
      | .other => ""
  | none => ""

/-- The memory-write block of `conversationNode`
(`src/nodes/conversation.ts`, lines 142-161): when a store is configured,
examine `state.messages.at(-1)`; flatten non-string content to `""`; if the
lowercased content contains `"remember"`, put
`{ text: content, createdAt: now ISO }` under key `"mem_" + Date.now()` in
the client's namespace. Errors from `put` are caught and ignored, so the
result of `store.put` is not consulted; the put call itself is recorded. -/
def memoryWritePuts (env : Env) (store : Option Store) (clientId : String)
    (messages : List Message) : List PutCall :=
  match store with
  | none => []
  | some _ =>
      let content := lastStringContent messages
      if jsIncludes (jsToLowerCase content) "remember" then
        [{ ns := getMemoryNamespace clientId,
           key := "mem_" ++ toString env.nowMs,
           value := { text := content, createdAt := env.nowIso } }]
      else []

/-- `conversationNode` (`src/nodes/conversation.ts`): resolve the LLM
capability for the configured model, resolve the client id (default
`"default"`), retrieve memories (best-effort), build the system message,
invoke the LLM (the one failure that propagates), apply the memory-write
policy, and return `{ messages: [response] }` together with the store
traffic performed. `llm model msgs` is `getLLMService().getModel(model)
.invoke(msgs)`. -/
def conversationNode (env : Env)
    (llm : Option String → List Message → Except Unit Message)
    (state : AgentState) (config : RunnableConfig) :
    Except Unit (AgentStateUpdate × Effects) :=
  let clientId := config.clientId.getD "default"
  let searches :=
    match config.store with
    | none => []
    | some _ => [{ ns := getMemoryNamespace clientId, limit := 10 : SearchCall }]
  let memoriesText :=
    match config.store with
    | none => ""
    | some store => retrieveMemoriesText store clientId
  let systemMessage : Message :=
    { role := .system,
      content := .str (createSystemMessage (some memoriesText) state.user
        config.systemPrompt env.sysPromptEnv) }
  match llm config.model (systemMessage :: state.messages) with
  | .error e => .error e
  | .ok response =>
      .ok ({ messages := some [response], user := none },
           { searches := searches,
             puts := memoryWritePuts env config.store clientId state.messages })

/-- `fetchUserNode` (`src/nodes/fetch-user.ts`): look the client up in the
Semble service; skip entirely (empty update, no call) when `clientId` is
falsy; swallow lookup failures and a `null` user into an empty update.
Returns the delta together with the list of `getUser` calls made. -/
def fetchUserNode (getUser : String → Except Unit (Option Patient))
    (clientId : Option String) : AgentStateUpdate × List String :=
  if (clientId.getD "") = "" then ({}, [])
  else
    let cid := clientId.getD ""
    match getUser cid with
    | .error _ => ({}, [cid])
    | .ok none => ({}, [cid])
    | .ok (some u) => ({ user := some u }, [cid])

/-- Merging a node delta into the prior state. The `user` reducer is the
`(x, y) => y ?? x` of `src/state.ts`.
Modelled from the spec: the `messages` reducer (`messagesStateReducer`, an
external LangGraph collaborator whose implementation is not part of this
repository) is append-merge — "new messages are concatenated to existing,
never replacing". -/
def applyUpdate (s : AgentState) (u : AgentStateUpdate) : AgentState :=
  { messages := s.messages ++ u.messages.getD [],
    user :=
      match u.user with
      | some p => some p
      | none => s.user }

/-- Default model identifier (`DEFAULT_MODEL` in
`src/services/llm/openrouter.service.ts`). -/
def DEFAULT_MODEL : String := "google/gemini-2.5-flash-lite"

/-- Default OpenRouter base URL (`DEFAULT_BASE_URL` in
`src/services/llm/openrouter.service.ts`). -/
def DEFAULT_BASE_URL : String := "https://openrouter.ai/api/v1"

/-- Process-level configuration read by the LLM service. -/
structure ProcessEnv where
  openrouterApiKey : Option String := none
  openrouterBaseUrl : Option String := none
  modelName : Option String := none
deriving DecidableEq, Repr

/-- `OpenRouterLLMService` instance fields (`src/services/llm/openrouter.service.ts`). -/
structure OpenRouterLLMService where
  apiKey : String
  baseURL : String
deriving DecidableEq, Repr

/-- The resolved `ChatOpenAI` construction arguments produced by `getModel`. -/
structure ChatModelConfig where
  model : String
  apiKey : String
  baseURL : String
deriving DecidableEq, Repr

/-- The `OpenRouterLLMService` constructor
(`src/services/llm/openrouter.service.ts`, lines 15-22): throws when
`process.env.OPENROUTER_API_KEY` is falsy (absent or empty), otherwise
stores the key and the base URL (`OPENROUTER_BASE_URL ?? DEFAULT_BASE_URL`). -/
def OpenRouterLLMService.construct (penv : ProcessEnv) :
    Except String OpenRouterLLMService :=
  let apiKey := penv.openrouterApiKey.getD ""
  if apiKey = "" then
    .error "OPENROUTER_API_KEY environment variable is required."
  else
    .ok { apiKey := apiKey, baseURL := penv.openrouterBaseUrl.getD DEFAULT_BASE_URL }

/-- `OpenRouterLLMService.getModel`
(`src/services/llm/openrouter.service.ts`, lines 24-30): total resolution of
the effective model identifier, `modelName ?? process.env.MODEL_NAME ??
DEFAULT_MODEL`; performs no credential check and cannot throw. -/
def OpenRouterLLMService.getModel (svc : OpenRouterLLMService)
    (penv : ProcessEnv) (modelName : Option String) : ChatModelConfig :=
  { model := modelName.getD (penv.modelName.getD DEFAULT_MODEL),
    apiKey := svc.apiKey,
    baseURL := svc.baseURL }

/-!
Spec-side definitions, written from the specification's words, to be
compared with the definitions embedded from the source above.
-/

/-- Modelled from the spec (§4.5): the text an item contributes — its
`.value.text`, with empty or absent entries dropped. -/
def survivorText (it : SearchItem) : Option String :=
  it.value.bind (fun v => if v.text = "" then none else some v.text)

/-- Modelled from the spec (§4.5): "For each returned item, extract
`.value.text`; drop empty/absent entries; join the remaining with `"\n- "`
and, if any survived, prefix the whole joined string with `"- "`." -/
def memorySpecText (items : List SearchItem) : String :=
  let survivors := items.filterMap survivorText
  if survivors.isEmpty then "" else "- " ++ String.intercalate "\n- " survivors

/-- Modelled from the spec (§4.4, step 2): the profile lines, in the fixed
order User Name / Email / DOB / Gender, each of the last three "omitted
entirely, not blank, when its source field is absent" (absent meaning
JavaScript-falsy: undefined or empty). -/
def specProfileFields (u : Patient) : List String :=
  ["User Name: " ++ jsInterp u.firstName ++ " " ++ jsInterp u.lastName]
    ++ (match u.email with
        | some e => if e = "" then [] else ["Email: " ++ e]
        | none => [])
    ++ (match u.dob with
        | some d => if d = "" then [] else ["DOB: " ++ d]
        | none => [])
    ++ (match u.gender with
        | some g => if g = "" then [] else ["Gender: " ++ g]
        | none => [])

/-- Modelled from the spec (§4.4): the assembled system-message text — the
effective instruction (per-call override, else process default, else
`"You are a helpful assistant."`), then the profile block when a profile is
present, then the memory block when non-empty memory text is present. -/
def specAssembledMessage (overridePrompt processDefault : Option String)
    (profile : Option Patient) (memoryText : Option String) : String :=
  let base := overridePrompt.getD (processDefault.getD "You are a helpful assistant.")
  let withProfile :=
    match profile with
    | some u =>
        base ++ "\n\nHere is some information about the user you are talking to:\n"
          ++ String.intercalate "\n" (specProfileFields u)
    | none => base
  match memoryText with
  | some t =>
      if t = "" then withProfile
      else withProfile ++ "\n\nWhat you remember about this user:\n" ++ t
  | none => withProfile

/-!
Helper lemmas.
-/

/-- `String.intercalate.go acc s l` extends `acc` on the right. -/
theorem intercalate_go_ex (s : String) :
    ∀ (l : List String) (acc : String), ∃ t, String.intercalate.go acc s l = acc ++ t
  | [], acc => ⟨"", by simp [String.intercalate.go]⟩
  | a :: as, acc => by
      obtain ⟨t, ht⟩ := intercalate_go_ex s as (acc ++ s ++ a)
      exact ⟨s ++ a ++ t, by simpa [String.intercalate.go, String.append_assoc] using ht⟩

/-- `String.intercalate` of a non-empty list extends its head on the right. -/
theorem intercalate_cons_ex (s x : String) (xs : List String) :
    ∃ t, String.intercalate s (x :: xs) = x ++ t := by
  simpa [String.intercalate] using intercalate_go_ex s xs x

/-- Appending to a non-empty string on the left keeps it non-empty. -/
theorem append_ne_empty_left (x t : String) (hx : x ≠ "") : x ++ t ≠ "" := by
  intro h
  apply hx
  have hd : x.data ++ t.data = [] := by
    have := congrArg String.data h
    simpa using this
  exact String.ext (List.append_eq_nil.mp hd).1

/-- `String.intercalate` over a list with a non-empty head is non-empty. -/
theorem intercalate_ne_empty (s x : String) (xs : List String) (hx : x ≠ "") :
    String.intercalate s (x :: xs) ≠ "" := by
  obtain ⟨t, ht⟩ := intercalate_cons_ex s x xs
  rw [ht]
  exact append_ne_empty_left x t hx

/-- Characterization of a successful `conversationNode` run: the reply comes
from the LLM call on the assembled system message followed by the incoming
messages, the delta is exactly that single reply, and the effects are the
one search (when a store is configured) plus the memory-write policy's puts. -/
theorem conversationNode_ok (env : Env)
    (llm : Option String → List Message → Except Unit Message)
    (state : AgentState) (config : RunnableConfig)
    (u : AgentStateUpdate) (eff : Effects)
    (hok : conversationNode env llm state config = .ok (u, eff)) :
    ∃ response,
      llm config.model
          ({ role := .system,
             content := .str (createSystemMessage
               (some (match config.store with
                      | none => ""
                      | some store => retrieveMemoriesText store (config.clientId.getD "default")))
               state.user config.systemPrompt env.sysPromptEnv) } :: state.messages)
        = .ok response
      ∧ u = { messages := some [response], user := none }
      ∧ eff = { searches :=
                  match config.store with
                  | none => []
                  | some _ => [{ ns := getMemoryNamespace (config.clientId.getD "default"), limit := 10 }],
                puts := memoryWritePuts env config.store (config.clientId.getD "default") state.messages } := by
  unfold conversationNode at hok
  revert hok
  cases hllm : llm config.model
      ({ role := .system,
         content := .str (createSystemMessage
           (some (match config.store with
                  | none => ""
                  | some store => retrieveMemoriesText store (config.clientId.getD "default")))
           state.user config.systemPrompt env.sysPromptEnv) } :: state.messages) with
  | error e => intro hok; simp [hllm] at hok
  | ok response =>
      intro hok
      simp only [hllm] at hok
      refine ⟨response, rfl, ?_, ?_⟩
      · exact (Prod.mk.injEq _ _ _ _ ▸ (Except.ok.injEq _ _ ▸ hok)).1.symm
      · exact (Prod.mk.injEq _ _ _ _ ▸ (Except.ok.injEq _ _ ▸ hok)).2.symm

/-- Without a store the write policy performs no put. -/
theorem memoryWritePuts_none (env : Env) (cid : String) (msgs : List Message) :
    memoryWritePuts env none cid msgs = [] := rfl

/-- With a store and a triggering last message, the write policy performs
exactly the one put the policy describes. -/
theorem memoryWritePuts_trigger (env : Env) (st : Store) (cid : String)
    (msgs : List Message) (m : Message) (s : String)
    (hlast : msgs.getLast? = some m) (hstr : m.content = .str s)
    (hinc : jsIncludes (jsToLowerCase s) "remember" = true) :
    memoryWritePuts env (some st) cid msgs =
      [{ ns := ["memories", cid], key := "mem_" ++ toString env.nowMs,
         value := { text := s, createdAt := env.nowIso } }] := by
  simp [memoryWritePuts, lastStringContent, hlast, hstr, hinc, getMemoryNamespace]

/-- Without a triggering plain-string last message the write policy performs
no put. -/
theorem memoryWritePuts_no_trigger (env : Env) (store : Option Store) (cid : String)
    (msgs : List Message)
    (h : ¬ ∃ m s, msgs.getLast? = some m ∧ m.content = .str s ∧
          jsIncludes (jsToLowerCase s) "remember" = true) :
    memoryWritePuts env store cid msgs = [] := by
  cases store with
  | none => rfl
  | some st =>
      unfold memoryWritePuts lastStringContent
      cases hlast : msgs.getLast? with
      | none => simp [show jsIncludes (jsToLowerCase "") "remember" = false from rfl]
      | some m =>
          cases hstr : m.content with
          | other => simp [hstr, show jsIncludes (jsToLowerCase "") "remember" = false from rfl]
          | str s =>
              have : jsIncludes (jsToLowerCase s) "remember" = false := by
                by_contra hne
                exact h ⟨m, s, hlast, hstr, by simpa using hne⟩
              simp [hstr, this]

/-- Pointwise agreement of the source's text extraction with `survivorText`. -/
theorem surv_pointwise (it : SearchItem) :
    (match it.value.map MemoryItem.text with
      | some s => if s ≠ "" then some s else none
      | none => none) = survivorText it := by
  unfold survivorText
  cases hv : it.value with
  | none => rfl
  | some v => by_cases ht : v.text = "" <;> simp [ht]

/-- The source's map-then-filter pipeline equals the spec's survivor list. -/
theorem mapped_filter_eq (items : List SearchItem) :
    (items.map (fun m => m.value.map MemoryItem.text)).filterMap
      (fun o => match o with
        | some s => if s ≠ "" then some s else none
        | none => none)
    = items.filterMap survivorText := by
  induction items with
  | nil => rfl
  | cons it rest ih =>
      simp only [List.map_cons, List.filterMap_cons, surv_pointwise, ih]

/-- Every survivor text is non-empty. -/
theorem survivors_ne_empty (items : List SearchItem) (s : String)
    (hs : s ∈ items.filterMap survivorText) : s ≠ "" := by
  obtain ⟨it, _, hit⟩ := List.mem_filterMap.mp hs
  unfold survivorText at hit
  cases hv : it.value with
  | none => rw [hv] at hit; simp at hit
  | some v =>
      rw [hv] at hit
      by_cases ht : v.text = ""
      · simp [ht] at hit
      · simp [ht] at hit
        exact hit ▸ ht

/-- The source's memory-retrieval assembly agrees with the spec's
description on every successful search. -/
theorem retrieve_spec (store : Store) (clientId : String) (items : List SearchItem)
    (h : store.search (getMemoryNamespace clientId) 10 = .ok items) :
    retrieveMemoriesText store clientId = memorySpecText items := by
  cases items with
  | nil => simp only [retrieveMemoriesText, memorySpecText, h]; rfl
  | cons it rest =>
      simp only [retrieveMemoriesText, memorySpecText, h]
      rw [mapped_filter_eq]
      rw [if_pos (by simp)]
      cases hsurv : (it :: rest).filterMap survivorText with
      | nil => decide
      | cons x xs =>
          have hx : x ≠ "" :=
            survivors_ne_empty (it :: rest) x (by rw [hsurv]; exact List.mem_cons_self x xs)
          have hne := intercalate_ne_empty "\n- " x xs hx
          simp [hne]

/-- Every put the write policy performs has the client namespace, the
timestamp key, and the flattened last-message content as its text. -/
theorem memoryWritePuts_mem (env : Env) (store : Option Store) (cid : String)
    (msgs : List Message) (p : PutCall)
    (hp : p ∈ memoryWritePuts env store cid msgs) :
    p = { ns := ["memories", cid], key := "mem_" ++ toString env.nowMs,
          value := { text := lastStringContent msgs, createdAt := env.nowIso } } := by
  unfold memoryWritePuts at hp
  cases store with
  | none => simp at hp
  | some st =>
      by_cases hinc : jsIncludes (jsToLowerCase (lastStringContent msgs)) "remember" = true
      · simpa [hinc, getMemoryNamespace] using hp
      · simp [hinc] at hp

/-!
Concrete fixtures used by the witness and counterexample theorems.
-/

/-- A store whose search returns the spec's three-item example and whose put
succeeds. -/
def wStoreOk : Store :=
  { search := fun _ _ => .ok [⟨some ⟨"a", "t1"⟩⟩, ⟨some ⟨"", "t2"⟩⟩, ⟨some ⟨"b", "t3"⟩⟩],
    put := fun _ _ _ => .ok () }

/-- A store whose search and put both throw. -/
def wStoreFail : Store :=
  { search := fun _ _ => .error (), put := fun _ _ _ => .error () }

/-- An LLM capability that always replies `"hello"`. -/
def wLLM : Option String → List Message → Except Unit Message :=
  fun _ _ => .ok { role := .assistant, content := .str "hello" }

/-- An LLM capability that always throws. -/
def wLLMFail : Option String → List Message → Except Unit Message :=
  fun _ _ => .error ()

/-- A fixed clock environment. -/
def wEnv : Env :=
  { sysPromptEnv := none, nowMs := 1700000000000, nowIso := "2023-11-14T22:13:20.000Z" }

/-- Incoming state whose last message asks to remember something. -/
def wStateRemember : AgentState :=
  { messages := [{ role := .user, content := .str "Please remember I like tea" }] }

/-- Incoming state whose last message does not mention remembering. -/
def wStateNo : AgentState :=
  { messages := [{ role := .user, content := .str "What is the weather?" }] }

/-- A configuration with client id `"c1"` and the given store. -/
def wConfig (store : Option Store) : RunnableConfig :=
  { clientId := some "c1", store := store }

/-!
Claim theorems.
-/

/-- **C1.** For every turn with a configured store, the memory write policy
performs exactly one put — in namespace `["memories", clientId]`, under key
`"mem_" +` the millisecond epoch timestamp, with value
`{ text: verbatim content, createdAt: current ISO time }` — if and only if
the examined last message's content is a plain string that case-insensitively
contains `"remember"`; with no store, a non-string content, or no such
substring, zero puts occur. -/
theorem conversation_memory_write_policy (env : Env)
    (llm : Option String → List Message → Except Unit Message)
    (state : AgentState) (config : RunnableConfig)
    (u : AgentStateUpdate) (eff : Effects)
    (hok : conversationNode env llm state config = .ok (u, eff)) :
    (∀ (st : Store) (m : Message) (s : String), config.store = some st →
        state.messages.getLast? = some m → m.content = .str s →
        jsIncludes (jsToLowerCase s) "remember" = true →
        eff.puts = [{ ns := ["memories", config.clientId.getD "default"],
                      key := "mem_" ++ toString env.nowMs,
                      value := { text := s, createdAt := env.nowIso } }])
    ∧ ((¬ ∃ m s, state.messages.getLast? = some m ∧ m.content = .str s ∧
          jsIncludes (jsToLowerCase s) "remember" = true) → eff.puts = [])
    ∧ (config.store = none → eff.puts = []) := by
  obtain ⟨response, hllm, hu, heff⟩ := conversationNode_ok env llm state config u eff hok
  refine ⟨?_, ?_, ?_⟩
  · intro st m s hst hlast hstr hinc
    rw [heff, hst]
    exact memoryWritePuts_trigger env st _ state.messages m s hlast hstr hinc
  · intro hno
    rw [heff]
    exact memoryWritePuts_no_trigger env config.store _ state.messages hno
  · intro hst
    rw [heff, hst]
    rfl

/-- Witness for C1: a turn with the `"Please remember I like tea"` last
message performs exactly the described put, and a turn with no store
performs none. -/
theorem conversation_memory_write_policy_witness :
    (∃ u eff, conversationNode wEnv wLLM wStateRemember (wConfig (some wStoreOk)) = .ok (u, eff)
      ∧ eff.puts = [{ ns := ["memories", "c1"], key := "mem_1700000000000",
                      value := { text := "Please remember I like tea",
                                 createdAt := "2023-11-14T22:13:20.000Z" } }])
    ∧ (∃ u eff, conversationNode wEnv wLLM wStateNo (wConfig none) = .ok (u, eff)
      ∧ eff.puts = []) := by
  constructor
  · refine ⟨_, _, rfl, ?_⟩
    exact (conversation_memory_write_policy wEnv wLLM wStateRemember (wConfig (some wStoreOk))
      _ _ rfl).1 wStoreOk { role := .user, content := .str "Please remember I like tea" }
      "Please remember I like tea" rfl rfl rfl (by decide)
  · refine ⟨_, _, rfl, ?_⟩
    exact (conversation_memory_write_policy wEnv wLLM wStateNo (wConfig none)
      _ _ rfl).2.2 rfl

/-- **C2.** The assembled memory text is obtained exactly as the spec
describes (extract `.value.text`, drop empty/absent, join with `"\n- "`,
prefix `"- "` when any survived); the spec's three-item example yields
`"- a\n- b"`; a missing store or a throwing search degrades to `""` and the
turn still completes. -/
theorem memory_retrieval_assembly :
    (∀ (store : Store) (clientId : String) (items : List SearchItem),
        store.search (getMemoryNamespace clientId) 10 = .ok items →
        retrieveMemoriesText store clientId = memorySpecText items)
    ∧ (∀ (store : Store) (clientId : String),
        store.search (getMemoryNamespace clientId) 10 = .error () →
        retrieveMemoriesText store clientId = "")
    ∧ (∀ (store : Store) (clientId : String),
        store.search (getMemoryNamespace clientId) 10 =
          .ok [⟨some ⟨"a", "t1"⟩⟩, ⟨some ⟨"", "t2"⟩⟩, ⟨some ⟨"b", "t3"⟩⟩] →
        retrieveMemoriesText store clientId = "- a\n- b")
    ∧ (∀ (env : Env) (llm : Option String → List Message → Except Unit Message)
         (state : AgentState) (config : RunnableConfig) (r : Message),
        (∀ msgs, llm config.model msgs = .ok r) →
        (config.store = none ∨ ∃ store, config.store = some store ∧
            store.search (getMemoryNamespace (config.clientId.getD "default")) 10 = .error ()) →
        ∃ eff, conversationNode env llm state config
          = .ok ({ messages := some [r], user := none }, eff)) := by
  refine ⟨retrieve_spec, ?_, ?_, ?_⟩
  · intro store clientId h
    unfold retrieveMemoriesText
    rw [h]
  · intro store clientId h
    rw [retrieve_spec store clientId _ h]
    decide
  · intro env llm state config r hllm _
    refine ⟨{ searches :=
                match config.store with
                | none => []
                | some _ => [{ ns := getMemoryNamespace (config.clientId.getD "default"), limit := 10 }],
              puts := memoryWritePuts env config.store (config.clientId.getD "default")
                state.messages }, ?_⟩
    unfold conversationNode
    simp only [hllm]

/-- Witness for C2: the example store yields `"- a\n- b"`, the throwing
store yields `""`, and with the throwing store the turn still completes. -/
theorem memory_retrieval_assembly_witness :
    retrieveMemoriesText wStoreOk "c1" = "- a\n- b"
    ∧ retrieveMemoriesText wStoreFail "c1" = ""
    ∧ (∃ eff, conversationNode wEnv wLLM wStateNo (wConfig (some wStoreFail))
        = .ok ({ messages := some [{ role := .assistant, content := .str "hello" }],
                 user := none }, eff)) := by
  refine ⟨?_, ?_, ?_⟩
  · exact memory_retrieval_assembly.2.2.1 wStoreOk "c1" rfl
  · exact memory_retrieval_assembly.2.1 wStoreFail "c1" rfl
  · exact memory_retrieval_assembly.2.2.2 wEnv wLLM wStateNo (wConfig (some wStoreFail))
      _ (fun _ => rfl) (Or.inr ⟨wStoreFail, rfl, rfl⟩)

/-- **C3.** An LLM failure propagates as a hard failure of the turn; a
memory-search failure degrades to empty memory text; a memory-put failure
cannot affect the node's result (the put's outcome is never consulted); a
profile-lookup failure yields an empty state update. -/
theorem error_handling_taxonomy :
    (∀ (env : Env) (llm : Option String → List Message → Except Unit Message)
       (state : AgentState) (config : RunnableConfig) (e : Unit),
        (∀ msgs, llm config.model msgs = .error e) →
        conversationNode env llm state config = .error e)
    ∧ (∀ (store : Store) (cid : String),
        store.search (getMemoryNamespace cid) 10 = .error () →
        retrieveMemoriesText store cid = "")
    ∧ (∀ (env : Env) (llm : Option String → List Message → Except Unit Message)
         (state : AgentState) (model clientId systemPrompt : Option String)
         (searchFn : List String → Nat → Except Unit (List SearchItem))
         (put1 put2 : List String → String → MemoryItem → Except Unit Unit),
        conversationNode env llm state
            { model := model, clientId := clientId, systemPrompt := systemPrompt,
              store := some { search := searchFn, put := put1 } }
          = conversationNode env llm state
            { model := model, clientId := clientId, systemPrompt := systemPrompt,
              store := some { search := searchFn, put := put2 } })
    ∧ (∀ (getUser : String → Except Unit (Option Patient)) (clientId : Option String),
        (∀ c, getUser c = .error ()) →
        (fetchUserNode getUser clientId).1 = ({} : AgentStateUpdate)) := by
  refine ⟨?_, ?_, ?_, ?_⟩
  · intro env llm state config e hllm
    unfold conversationNode
    simp only [hllm]
  · intro store cid h
    unfold retrieveMemoriesText
    rw [h]
  · intro env llm state model clientId systemPrompt searchFn put1 put2
    simp only [conversationNode, retrieveMemoriesText, memoryWritePuts]
  · intro getUser clientId hfail
    unfold fetchUserNode
    by_cases hc : (clientId.getD "") = ""
    · simp [hc]
    · simp [hc, hfail]

/-- Witness for C3: a failing LLM fails the turn outright; the throwing
store's search degrades to `""`; swapping a failing put for a succeeding
one leaves the node's result unchanged; a failing profile lookup returns
the empty update. -/
theorem error_handling_taxonomy_witness :
    conversationNode wEnv wLLMFail wStateNo (wConfig none) = .error ()
    ∧ retrieveMemoriesText wStoreFail "c1" = ""
    ∧ conversationNode wEnv wLLM wStateRemember
        { model := none, clientId := some "c1", systemPrompt := none,
          store := some { search := wStoreOk.search, put := fun _ _ _ => .error () } }
      = conversationNode wEnv wLLM wStateRemember
        { model := none, clientId := some "c1", systemPrompt := none,
          store := some { search := wStoreOk.search, put := fun _ _ _ => .ok () } }
    ∧ (fetchUserNode (fun _ => .error ()) (some "c1")).1 = ({} : AgentStateUpdate) := by
  refine ⟨?_, ?_, ?_, ?_⟩
  · exact error_handling_taxonomy.1 wEnv wLLMFail wStateNo (wConfig none) () (fun _ => rfl)
  · exact error_handling_taxonomy.2.1 wStoreFail "c1" rfl
  · exact error_handling_taxonomy.2.2.1 wEnv wLLM wStateRemember none (some "c1") none
      wStoreOk.search (fun _ _ _ => .error ()) (fun _ _ _ => .ok ())
  · exact error_handling_taxonomy.2.2.2 (fun _ => .error ()) (some "c1") (fun _ => rfl)

/-- The content examined by the claim's reading: the last user-authored
message of the list. -/
def lastUserAuthoredContent (messages : List Message) : Option Content :=
  ((messages.filter (fun m => m.role == .user)).getLast?).map Message.content

/-- Incoming state whose last entry is an assistant message mentioning
"remember", while the last *user-authored* message is an earlier one. -/
def cexState : AgentState :=
  { messages := [{ role := .user, content := .str "Please remember I like tea" },
                 { role := .assistant, content := .str "I will remember that" }] }

/-- **C4, counterexample.** When the incoming list ends with an assistant
message, the write policy examines and stores that assistant message, not
the last user-authored one: the claim's "the message it examines and stores
verbatim is the last user-authored message" fails on this input. -/
theorem memory_write_last_user_cex :
    (∃ u eff, conversationNode wEnv wLLM cexState (wConfig (some wStoreOk)) = .ok (u, eff)
      ∧ eff.puts.map (fun p => p.value.text) = ["I will remember that"])
    ∧ lastUserAuthoredContent cexState.messages = some (.str "Please remember I like tea")
    ∧ ((Content.str "I will remember that") ≠ .str "Please remember I like tea") := by
  refine ⟨⟨_, _, rfl, by decide⟩, by decide, by decide⟩

/-- **C4, amended.** The write policy decides purely from the last message
already present in the incoming list — regardless of its author — and never
from the new assistant reply: every put stores the flattened content of
`state.messages.at(-1)`, and the puts are independent of the LLM's reply. -/
theorem memory_write_examines_incoming_last (env : Env)
    (llm : Option String → List Message → Except Unit Message)
    (state : AgentState) (config : RunnableConfig)
    (u : AgentStateUpdate) (eff : Effects)
    (hok : conversationNode env llm state config = .ok (u, eff)) :
    (∀ p ∈ eff.puts, p.value.text = lastStringContent state.messages)
    ∧ (∀ (llm2 : Option String → List Message → Except Unit Message)
         (u2 : AgentStateUpdate) (eff2 : Effects),
        conversationNode env llm2 state config = .ok (u2, eff2) →
        eff2.puts = eff.puts) := by
  obtain ⟨r, hllm, hu, heff⟩ := conversationNode_ok env llm state config u eff hok
  constructor
  · intro p hp
    rw [heff] at hp
    rw [memoryWritePuts_mem env config.store _ state.messages p hp]
  · intro llm2 u2 eff2 hok2
    obtain ⟨r2, hllm2, hu2, heff2⟩ := conversationNode_ok env llm2 state config u2 eff2 hok2
    rw [heff, heff2]

/-- Witness for the amended C4: in the counterexample run, the put's text is
exactly the flattened last incoming message, and a different LLM reply
leaves the puts unchanged. -/
theorem memory_write_examines_incoming_last_witness :
    (∃ u eff, conversationNode wEnv wLLM cexState (wConfig (some wStoreOk)) = .ok (u, eff)
      ∧ (∀ p ∈ eff.puts, p.value.text = lastStringContent cexState.messages)) := by
  refine ⟨_, _, rfl, ?_⟩
  exact (memory_write_examines_incoming_last wEnv wLLM cexState (wConfig (some wStoreOk))
    _ _ rfl).1

/-- **C5.** The conversation node's delta contains exactly one message, and
merging it with any prior state only appends to the existing message
sequence. -/
theorem conversation_delta_single_append (env : Env)
    (llm : Option String → List Message → Except Unit Message)
    (state : AgentState) (config : RunnableConfig)
    (u : AgentStateUpdate) (eff : Effects)
    (hok : conversationNode env llm state config = .ok (u, eff)) :
    (u.messages.getD []).length = 1
    ∧ ∀ prior : AgentState,
        (applyUpdate prior u).messages = prior.messages ++ (u.messages.getD []) := by
  obtain ⟨r, hllm, hu, heff⟩ := conversationNode_ok env llm state config u eff hok
  subst hu
  exact ⟨rfl, fun prior => rfl⟩

/-- Witness for C5 at a concrete turn. -/
theorem conversation_delta_single_append_witness :
    ∃ u eff, conversationNode wEnv wLLM wStateNo (wConfig none) = .ok (u, eff)
      ∧ (u.messages.getD []).length = 1
      ∧ (applyUpdate wStateNo u).messages = wStateNo.messages ++ (u.messages.getD []) := by
  refine ⟨_, _, rfl, ?_, ?_⟩
  · exact (conversation_delta_single_append wEnv wLLM wStateNo (wConfig none) _ _ rfl).1
  · exact (conversation_delta_single_append wEnv wLLM wStateNo (wConfig none) _ _ rfl).2 wStateNo

/-- The source's profile-line construction agrees with the spec's field
list. -/
theorem userDetails_eq (u : Patient) :
    userDetails u = String.intercalate "\n" (specProfileFields u) := by
  unfold userDetails specProfileFields
  rcases u.email with _ | e <;> rcases u.dob with _ | d <;> rcases u.gender with _ | g <;>
    simp [List.filterMap_cons] <;> split_ifs <;> simp_all [List.filterMap_cons]

/-- **C6.** For every combination of base instruction, optional profile and
optional memory text, the assembled system message is exactly the spec's
description: effective instruction (override, else process default, else
the hardcoded default), then the profile block with present-only fields in
the fixed order (a field that is undefined or empty is omitted entirely),
then the memory block when non-empty memory text is present; the Jane Doe
example produces exactly the single `User Name: Jane Doe` line. -/
theorem prompt_assembly_matches_spec :
    (∀ (memories : Option String) (user : Option Patient)
       (systemPrompt : Option String) (sysPromptEnv : Option String),
        createSystemMessage memories user systemPrompt sysPromptEnv
          = specAssembledMessage systemPrompt sysPromptEnv user memories)
    ∧ createSystemMessage (some "")
        (some { id := "jd", firstName := some "Jane", lastName := some "Doe" }) none none
      = "You are a helpful assistant.\n\nHere is some information about the user you are talking to:\nUser Name: Jane Doe" := by
  constructor
  · intro memories user systemPrompt sysPromptEnv
    unfold createSystemMessage specAssembledMessage getSystemPrompt DEFAULT_SYSTEM_PROMPT
    cases user with
    | none =>
        cases memories with
        | none => rfl
        | some t => by_cases ht : t = "" <;> simp [ht]
    | some u =>
        simp only [userDetails_eq]
        cases memories with
        | none => rfl
        | some t => by_cases ht : t = "" <;> simp [ht, String.append_assoc]
  · decide

/-- A profile source that answers every id, used to show the profile fetch
is skipped (not called with `"default"`) when the client id is absent. -/
def cexGetUser : String → Except Unit (Option Patient) :=
  fun cid => .ok (some { id := cid })

/-- **C7, counterexample.** With no `clientId` configured, the profile-fetch
node does not proceed with `"default"`: it performs zero lookups and
returns the empty update, even against a profile source that would have
answered. -/
theorem client_default_profile_cex :
    fetchUserNode cexGetUser none = ({}, [])
    ∧ (fetchUserNode cexGetUser none).2 ≠ ["default"]
    ∧ (fetchUserNode cexGetUser none).1.user = none := by
  refine ⟨rfl, by decide, rfl⟩

/-- **C7, amended.** With no `clientId` configured, the conversation node
resolves the memory namespace to `["memories", "default"]` for both the
search and any write; the profile-fetch node, however, skips the lookup
entirely (empty update, zero `getUser` calls) rather than proceeding with
`"default"`. -/
theorem client_default_resolution (env : Env)
    (llm : Option String → List Message → Except Unit Message)
    (state : AgentState) (config : RunnableConfig) (store : Store)
    (u : AgentStateUpdate) (eff : Effects)
    (hcid : config.clientId = none) (hstore : config.store = some store)
    (hok : conversationNode env llm state config = .ok (u, eff)) :
    eff.searches = [{ ns := ["memories", "default"], limit := 10 }]
    ∧ (∀ p ∈ eff.puts, p.ns = ["memories", "default"])
    ∧ (∀ getUser : String → Except Unit (Option Patient),
        fetchUserNode getUser none = ({}, [])) := by
  obtain ⟨r, hllm, hu, heff⟩ := conversationNode_ok env llm state config u eff hok
  refine ⟨?_, ?_, fun getUser => rfl⟩
  · rw [heff, hstore, hcid]
    rfl
  · intro p hp
    rw [heff, hcid] at hp
    rw [memoryWritePuts_mem env config.store "default" state.messages p hp]

/-- Witness for the amended C7: a concrete store-backed turn with no client
id searches and writes in `["memories", "default"]`. -/
theorem client_default_resolution_witness :
    ∃ u eff, conversationNode wEnv wLLM wStateRemember
        { clientId := none, store := some wStoreOk } = .ok (u, eff)
      ∧ eff.searches = [{ ns := ["memories", "default"], limit := 10 }]
      ∧ (∀ p ∈ eff.puts, p.ns = ["memories", "default"]) := by
  refine ⟨_, _, rfl, ?_, ?_⟩
  · exact (client_default_resolution wEnv wLLM wStateRemember
      { clientId := none, store := some wStoreOk } wStoreOk _ _ rfl rfl rfl).1
  · exact (client_default_resolution wEnv wLLM wStateRemember
      { clientId := none, store := some wStoreOk } wStoreOk _ _ rfl rfl rfl).2.1

/-- **C8.** A falsy `OPENROUTER_API_KEY` makes the service constructor
throw (startup-fatal); with the credential present, construction succeeds
and `getModel` is a total resolution (override → `MODEL_NAME` → hardcoded
default) that performs no credential check and cannot throw. -/
theorem llm_credential_startup_check :
    (∀ penv : ProcessEnv, penv.openrouterApiKey.getD "" = "" →
        OpenRouterLLMService.construct penv
          = .error "OPENROUTER_API_KEY environment variable is required.")
    ∧ (∀ (penv : ProcessEnv) (k : String), penv.openrouterApiKey = some k → k ≠ "" →
        OpenRouterLLMService.construct penv
          = .ok { apiKey := k, baseURL := penv.openrouterBaseUrl.getD DEFAULT_BASE_URL })
    ∧ (∀ (svc : OpenRouterLLMService) (penv : ProcessEnv) (m : Option String),
        OpenRouterLLMService.getModel svc penv m
          = { model := m.getD (penv.modelName.getD DEFAULT_MODEL),
              apiKey := svc.apiKey, baseURL := svc.baseURL }) := by
  refine ⟨?_, ?_, fun svc penv m => rfl⟩
  · intro penv h
    unfold OpenRouterLLMService.construct
    simp [h]
  · intro penv k hk hne
    unfold OpenRouterLLMService.construct
    simp [hk, hne]

/-- Witness for C8: a missing key fails construction with the source's
message; a present key constructs and resolves the default model. -/
theorem llm_credential_startup_check_witness :
    OpenRouterLLMService.construct { openrouterApiKey := none }
      = .error "OPENROUTER_API_KEY environment variable is required."
    ∧ OpenRouterLLMService.construct { openrouterApiKey := some "sk-test" }
      = .ok { apiKey := "sk-test", baseURL := "https://openrouter.ai/api/v1" }
    ∧ OpenRouterLLMService.getModel { apiKey := "sk-test", baseURL := "https://openrouter.ai/api/v1" }
        { openrouterApiKey := some "sk-test" } none
      = { model := "google/gemini-2.5-flash-lite", apiKey := "sk-test",
          baseURL := "https://openrouter.ai/api/v1" } := by
  refine ⟨?_, ?_, ?_⟩
  · exact llm_credential_startup_check.1 { openrouterApiKey := none } rfl
  · exact llm_credential_startup_check.2.1 { openrouterApiKey := some "sk-test" } "sk-test"
      rfl (by decide)
  · exact llm_credential_startup_check.2.2
      { apiKey := "sk-test", baseURL := "https://openrouter.ai/api/v1" }
      { openrouterApiKey := some "sk-test" } none

/-- **C9.** The conversation node's delta carries only the `messages` field
— its `user` field is always absent — so merging the delta leaves the
state's profile record unchanged. -/
theorem conversation_delta_frame (env : Env)
    (llm : Option String → List Message → Except Unit Message)
    (state : AgentState) (config : RunnableConfig)
    (u : AgentStateUpdate) (eff : Effects)
    (hok : conversationNode env llm state config = .ok (u, eff)) :
    u.user = none
    ∧ (∃ r, u.messages = some [r])
    ∧ ∀ prior : AgentState, (applyUpdate prior u).user = prior.user := by
  obtain ⟨r, hllm, hu, heff⟩ := conversationNode_ok env llm state config u eff hok
  subst hu
  exact ⟨rfl, ⟨r, rfl⟩, fun prior => rfl⟩

/-- Witness for C9 at a concrete turn with a non-empty prior profile. -/
theorem conversation_delta_frame_witness :
    ∃ u eff, conversationNode wEnv wLLM wStateNo (wConfig (some wStoreOk)) = .ok (u, eff)
      ∧ u.user = none
      ∧ (applyUpdate { messages := [], user := some { id := "p9" } } u).user
          = some { id := "p9" } := by
  refine ⟨_, _, rfl, ?_, ?_⟩
  · exact (conversation_delta_frame wEnv wLLM wStateNo (wConfig (some wStoreOk)) _ _ rfl).1
  · exact (conversation_delta_frame wEnv wLLM wStateNo (wConfig (some wStoreOk)) _ _ rfl).2.2
      { messages := [], user := some { id := "p9" } }

/-- The message suffix appended after the profile block, for any memory
argument. -/
theorem createSystemMessage_profile_ex (mem : Option String)
    (systemPrompt sysPromptEnv : Option String) (u : Patient) :
    ∃ post, createSystemMessage mem (some u) systemPrompt sysPromptEnv
      = getSystemPrompt sysPromptEnv systemPrompt
        ++ "\n\nHere is some information about the user you are talking to:\n"
        ++ userDetails u ++ post := by
  cases mem with
  | none => exact ⟨"", by simp [createSystemMessage]⟩
  | some t =>
      by_cases ht : t = ""
      · exact ⟨"", by simp [createSystemMessage, ht]⟩
      · exact ⟨"\n\nWhat you remember about this user:\n" ++ t,
          by simp [createSystemMessage, ht, String.append_assoc]⟩

/-- **C10.** For every present profile, the assembled system message carries
the `User Name:` line unconditionally — it is not guarded on field presence
— and an absent first or last name is interpolated as the literal text
`"undefined"`. -/
theorem username_line_unconditional :
    (∀ (mem : Option String) (systemPrompt sysPromptEnv : Option String) (u : Patient),
        ∃ post, createSystemMessage mem (some u) systemPrompt sysPromptEnv
          = getSystemPrompt sysPromptEnv systemPrompt
            ++ "\n\nHere is some information about the user you are talking to:\n"
            ++ ("User Name: " ++ jsInterp u.firstName ++ " " ++ jsInterp u.lastName) ++ post)
    ∧ jsInterp none = "undefined"
    ∧ userDetails { id := "p1", lastName := some "Doe" } = "User Name: undefined Doe" := by
  refine ⟨?_, rfl, by decide⟩
  intro mem systemPrompt sysPromptEnv u
  obtain ⟨t1, ht1⟩ : ∃ t1, userDetails u
      = ("User Name: " ++ jsInterp u.firstName ++ " " ++ jsInterp u.lastName) ++ t1 := by
    unfold userDetails
    obtain ⟨t, ht⟩ := intercalate_cons_ex "\n"
      ("User Name: " ++ jsInterp u.firstName ++ " " ++ jsInterp u.lastName)
      (([ if (u.email.getD "") ≠ "" then some ("Email: " ++ u.email.getD "") else none,
          if (u.dob.getD "") ≠ "" then some ("DOB: " ++ u.dob.getD "") else none,
          if (u.gender.getD "") ≠ "" then some ("Gender: " ++ u.gender.getD "") else none
        ] : List (Option String)).filterMap id)
    exact ⟨t, by simpa [List.filterMap_cons] using ht⟩
  obtain ⟨post, hpost⟩ := createSystemMessage_profile_ex mem systemPrompt sysPromptEnv u
  refine ⟨t1 ++ post, ?_⟩
  rw [hpost, ht1]
  simp [String.append_assoc]

end DemoGraph
